import Mathlib

/-!
Shallow embedding of `sched/sched/sched_addreadytorun.c` (NuttX scheduler,
ready-to-run admission).  The intrusive doubly linked task queues become Lean
lists (head = first element); TCBs become records; the global scheduler state
(`g_readytorun`, `g_pendingtasks`, `g_assignedtasks[]`, `g_cpu_lockset`,
`g_cpu_irqset`, `g_os_initstate`) becomes an explicit state record.  Machine
bit masks are `Nat` with explicit bitwise operations.  A `none` result models
a path on which the C code dereferences a null head pointer.
-/

namespace NuttxSched

/-- Task states from `tstate_e` that are visible to this core
(`TSTATE_TASK_PENDING`, `TSTATE_TASK_READYTORUN`, `TSTATE_TASK_ASSIGNED`,
`TSTATE_TASK_RUNNING`); `Invalid` stands for every other member. -/
inductive TState where
  | Invalid
  | Pending
  | ReadyToRun
  | Assigned
  | Running
deriving Repr, DecidableEq

/-- The fields of `struct tcb_s` read or written by
`sched_addreadytorun.c`.  `cpuLocked` models the `TCB_FLAG_CPU_LOCKED` bit of
`flags`; `pid` is carried only as task identity.  The intrusive `flink` link
is represented by list position. -/
structure TCB where
  pid : Nat
  sched_priority : Nat
  task_state : TState
  cpu : Nat
  cpuLocked : Bool
  affinity : Nat
  lockcount : Nat
  irqcount : Nat
deriving Repr, DecidableEq

/-- Modelled from the spec: the body of `sched_addprioritized`
(`insert_prioritized`, spec section 4.1) is not under `src/`.  Inserts the
task at the first position whose occupant has strictly lower priority (ties
insert after equals). -/
def insertPrio (t : TCB) : List TCB → List TCB
  | [] => [t]
  | h :: rest =>
    if h.sched_priority < t.sched_priority then t :: h :: rest
    else h :: insertPrio t rest

/-- Modelled from the spec: `sched_addprioritized` (spec section 4.1) is not
under `src/`.  Returns `true` iff the inserted task became the new head,
together with the queue after insertion. -/
def sched_addprioritized (t : TCB) (q : List TCB) : Bool × List TCB :=
  match q with
  | [] => (true, [t])
  | h :: rest =>
    if h.sched_priority < t.sched_priority then (true, t :: h :: rest)
    else (false, h :: insertPrio t rest)

/-- `spin_setbit(&mask, cpu, ...)`: set bit `cpu` of the mask (the guard and
coarse spinlocks of the C helper carry no extra state in this embedding; the
coarse boolean is recovered as `mask ≠ 0`, spec section 4.2). -/
def setBit (m c : Nat) : Nat := m ||| (1 <<< c)

/-- `spin_clrbit(&mask, cpu, ...)`: clear bit `cpu` of the mask (written as
set-then-toggle, which equals the C `mask &= ~(1 << cpu)`). -/
def clrBit (m c : Nat) : Nat := (m ||| (1 <<< c)) ^^^ (1 <<< c)

/-- Global state of the uniprocessor (`#ifndef CONFIG_SMP`) scheduler as seen
by `sched_addreadytorun`: the running task is `head g_readytorun`. -/
structure UpState where
  g_readytorun : List TCB
  g_pendingtasks : List TCB
deriving Repr, DecidableEq

/-- `sched_addreadytorun` for `#ifndef CONFIG_SMP` (lines 172-217).
`this_task()` is the head of `g_readytorun`; a `none` result models the null
dereference the C code would perform on an empty ready-to-run list.  The C
code writes `task_state` after the insertion; since insertion position
depends only on `sched_priority`, the state field is set on the inserted
record up front, which is behaviourally identical. -/
def sched_addreadytorun_up (btcb : TCB) (s : UpState) : Option (Bool × UpState) :=
  match s.g_readytorun with
  | [] => none
  | rtcb :: _ =>
    if rtcb.lockcount > 0 ∧ rtcb.sched_priority < btcb.sched_priority then
      some (false, { s with g_pendingtasks :=
        (sched_addprioritized { btcb with task_state := TState.Pending } s.g_pendingtasks).2 })
    else if (sched_addprioritized btcb s.g_readytorun).1 then
      match (sched_addprioritized { btcb with task_state := TState.Running } s.g_readytorun).2 with
      | b :: nxt :: rest =>
        some (true, { s with g_readytorun :=
          b :: { nxt with task_state := TState.ReadyToRun } :: rest })
      | _ => none
    else
      some (false, { s with g_readytorun :=
        (sched_addprioritized { btcb with task_state := TState.ReadyToRun } s.g_readytorun).2 })

/-- Global state of the SMP (`#ifdef CONFIG_SMP`) scheduler as seen by
`sched_addreadytorun`: `g_assignedtasks` is indexed by CPU number
(`ncpus = CONFIG_SMP_NCPUS` lists), the lock masks are `Nat` bit sets, and
`g_os_initstate` is the `nx_initstate_e` ordinal. -/
structure SmpState where
  ncpus : Nat
  g_assignedtasks : List (List TCB)
  g_readytorun : List TCB
  g_pendingtasks : List TCB
  g_cpu_lockset : Nat
  g_cpu_irqset : Nat
  g_os_initstate : Nat
deriving Repr, DecidableEq

/-- `g_assignedtasks[c]` as a list (empty when `c` is out of range, which the
C code never indexes). -/
def SmpState.assignedQ (s : SmpState) (c : Nat) : List TCB :=
  s.g_assignedtasks.getD c []

/-- Replace `g_assignedtasks[c]`. -/
def SmpState.setAssigned (s : SmpState) (c : Nat) (q : List TCB) : SmpState :=
  { s with g_assignedtasks := s.g_assignedtasks.set c q }

/-- Modelled from the spec: `OSINIT_OSREADY`, the final member of
`nx_initstate_e` in `nuttx/init.h`, is not under `src/`; only the comparison
`g_os_initstate < OSINIT_OSREADY` matters here. -/
def OSINIT_OSREADY : Nat := 6

/-- `sched_cpulocked` (lines 76-137): true iff the IRQ lock is held by a CPU
other than `cpu`.  The `g_cpu_irqsetlock` spinlock bracketing the body carries
no state in this sequential embedding. -/
def sched_cpulocked (s : SmpState) (cpu : Nat) : Bool :=
  if s.g_os_initstate < OSINIT_OSREADY then false
  else if s.g_cpu_irqset ≠ 0 then (s.g_cpu_irqset &&& (1 <<< cpu)) = 0
  else false

/-- Modelled from the spec: `spin_islocked(&g_cpu_schedlock)`.  The coarse
boolean spinlock `g_cpu_schedlock` is maintained by `spin_setbit` /
`spin_clrbit` (not under `src/`) so that it is held exactly when
`g_cpu_lockset ≠ 0` (spec section 4.2, `is_held(mask)` iff `mask ≠ 0`). -/
def schedlock_islocked (s : SmpState) : Bool := s.g_cpu_lockset ≠ 0

/-- Modelled from the spec: `sched_cpu_select` (spec section 4.3) is not
under `src/`.  Returns a CPU in the affinity mask whose assigned-list head has
the lowest priority, ties broken by the lowest CPU id (0 on an empty mask,
which the precondition excludes). -/
def sched_cpu_select (affinity : Nat) (s : SmpState) : Nat :=
  match (List.range s.ncpus).filter (fun c => affinity.testBit c) with
  | [] => 0
  | c0 :: rest =>
    rest.foldl
      (fun best c =>
        if (((s.assignedQ c).head?.map TCB.sched_priority).getD 0 <
            ((s.assignedQ best).head?.map TCB.sched_priority).getD 0) then c else best)
      c0

/-- Lines 266-281: the candidate CPU — `btcb->cpu` when the task is locked to
a CPU, otherwise the pick of `sched_cpu_select`. -/
def initial_cpu (btcb : TCB) (s : SmpState) : Nat :=
  if btcb.cpuLocked then btcb.cpu else sched_cpu_select btcb.affinity s

/-- Lines 283-313: read `rtcb = head g_assignedtasks[cpu]` (a `none` result
models the null dereference on an empty assigned list) and compute the
desired task state together with the final value of the `cpu` variable. -/
def smp_target (btcb : TCB) (s : SmpState) : Option (TState × Nat) :=
  let cpu := initial_cpu btcb s
  match (s.assignedQ cpu).head? with
  | none => none
  | some rtcb =>
    if rtcb.sched_priority < btcb.sched_priority then
      some (TState.Running, cpu)
    else if btcb.cpuLocked then
      some (TState.Assigned, btcb.cpu)
    else
      some (TState.ReadyToRun, 0)

/-- Lines 355-490: the `TSTATE_TASK_ASSIGNED` / `TSTATE_TASK_RUNNING` arm.
`up_cpu_pause` / `up_cpu_resume` carry no state here.  A `none` result models
the null `btcb->flink` dereference (`DEBUGASSERT` at line 430).  As in the UP
function, `task_state` and `cpu` are set on the record before insertion,
which cannot change the insertion position.  `doswitch0` is the indeterminate
initial value of the local `doswitch` (declared uninitialized at line 261):
the `switched` branch overwrites it (`true` at line 464, and `false` at line
488 when `cpu ≠ me`), but the non-switched branch (lines 466-481) never
writes it, so with `cpu = me` the function returns the uninitialized value
`doswitch0`. -/
def addrtr_assigned_path (btcb : TCB) (me : Nat) (s : SmpState) (cpu : Nat)
    (doswitch0 : Bool) : Option (Bool × SmpState) :=
  let tasklist := s.assignedQ cpu
  if (sched_addprioritized btcb tasklist).1 then
    match (sched_addprioritized
            { btcb with cpu := cpu, task_state := TState.Running } tasklist).2 with
    | b :: nxt :: rest =>
      let s1 : SmpState := { s with
        g_cpu_lockset :=
          if btcb.lockcount > 0 then setBit s.g_cpu_lockset cpu
          else clrBit s.g_cpu_lockset cpu
        g_cpu_irqset :=
          if btcb.irqcount > 0 then setBit s.g_cpu_irqset cpu
          else clrBit s.g_cpu_irqset cpu }
      let s2 : SmpState :=
        if nxt.cpuLocked then
          s1.setAssigned cpu (b :: { nxt with task_state := TState.Assigned } :: rest)
        else
          let s3 := s1.setAssigned cpu (b :: rest)
          if schedlock_islocked s1 then
            { s3 with g_pendingtasks :=
              (sched_addprioritized { nxt with task_state := TState.Pending }
                s3.g_pendingtasks).2 }
          else
            { s3 with g_readytorun :=
              (sched_addprioritized { nxt with task_state := TState.ReadyToRun }
                s3.g_readytorun).2 }
      some (decide (cpu = me), s2)
    | _ => none
  else
    some ((if cpu = me then doswitch0 else false), s.setAssigned cpu
      (sched_addprioritized { btcb with cpu := cpu, task_state := TState.Assigned }
        tasklist).2)

/-- Lines 328-354: divert to the pending list when the scheduler is locked or
the IRQ lock is held elsewhere (unless the target state is Assigned), or add
to `g_readytorun` when the target state is ReadyToRun; otherwise fall through
to the assigned-list arm. -/
def addrtr_rest (btcb : TCB) (me : Nat) (s : SmpState) (tst : TState) (cpu : Nat)
    (doswitch0 : Bool) : Option (Bool × SmpState) :=
  if (schedlock_islocked s || sched_cpulocked s me) && decide (tst ≠ TState.Assigned) then
    some (false, { s with g_pendingtasks :=
      (sched_addprioritized { btcb with task_state := TState.Pending }
        s.g_pendingtasks).2 })
  else if tst = TState.ReadyToRun then
    some (false, { s with g_readytorun :=
      (sched_addprioritized { btcb with task_state := TState.ReadyToRun }
        s.g_readytorun).2 })
  else
    addrtr_assigned_path btcb me s cpu doswitch0

/-- `sched_addreadytorun` for `#ifdef CONFIG_SMP` (lines 256-493).
`doswitch0` is the indeterminate initial value of the uninitialized local
`doswitch`; it reaches the return value only on the non-switched
assigned-list arm with `cpu = me`. -/
def sched_addreadytorun_smp (btcb : TCB) (me : Nat) (s : SmpState)
    (doswitch0 : Bool) : Option (Bool × SmpState) :=
  match smp_target btcb s with
  | none => none
  | some (tst, cpu) => addrtr_rest btcb me s tst cpu doswitch0

/-! Helper lemmas. -/

theorem testBit_setBit_self (m c : Nat) : (setBit m c).testBit c = true := by
  simp [setBit, Nat.testBit_lor, Nat.shiftLeft_eq, Nat.testBit_two_pow_self]

theorem testBit_clrBit_self (m c : Nat) : (clrBit m c).testBit c = false := by
  simp [clrBit, Nat.testBit_xor, Nat.testBit_lor, Nat.shiftLeft_eq,
    Nat.testBit_two_pow_self]

theorem and_bit_eq_zero_iff (m c : Nat) : (m &&& (1 <<< c) = 0) ↔ m.testBit c = false := by
  rw [Nat.shiftLeft_eq, one_mul, Nat.and_two_pow]
  rcases h : m.testBit c <;> simp

theorem getD_set_self {α : Type} (l : List α) (i : Nat) (a d : α) (h : i < l.length) :
    (l.set i a).getD i d = a := by
  rw [List.getD_eq_getD_get?, List.get?_set_eq_of_lt _ h]
  rfl

theorem getD_set_ne {α : Type} (l : List α) (i j : Nat) (a d : α) (h : i ≠ j) :
    (l.set i a).getD j d = l.getD j d := by
  rw [List.getD_eq_getD_get?, List.get?_set_ne _ _ h, ← List.getD_eq_getD_get?]

theorem assignedQ_lt_of_ne_nil (s : SmpState) (c : Nat) (h : s.assignedQ c ≠ []) :
    c < s.g_assignedtasks.length := by
  by_contra hc
  exact h (List.getD_eq_default _ _ (Nat.le_of_not_lt hc))

theorem assignedQ_setAssigned_self (s : SmpState) (c : Nat) (q : List TCB)
    (h : c < s.g_assignedtasks.length) : (s.setAssigned c q).assignedQ c = q := by
  simp only [SmpState.setAssigned, SmpState.assignedQ]
  exact getD_set_self _ _ _ _ h

theorem assignedQ_setAssigned_ne (s : SmpState) (c c2 : Nat) (q : List TCB)
    (h : c ≠ c2) : (s.setAssigned c q).assignedQ c2 = s.assignedQ c2 := by
  simp only [SmpState.setAssigned, SmpState.assignedQ]
  exact getD_set_ne _ _ _ _ _ h

theorem smp_eq_rest (btcb : TCB) (me : Nat) (s : SmpState) (tst : TState) (c : Nat)
    {j : Bool} (hsel : smp_target btcb s = some (tst, c)) :
    sched_addreadytorun_smp btcb me s j = addrtr_rest btcb me s tst c j := by
  unfold sched_addreadytorun_smp
  rw [hsel]

theorem smp_target_running_inv (btcb : TCB) (s : SmpState) (c : Nat)
    (h : smp_target btcb s = some (TState.Running, c)) :
    c = initial_cpu btcb s ∧
    ∃ rtcb rest, s.assignedQ c = rtcb :: rest ∧
      rtcb.sched_priority < btcb.sched_priority := by
  rcases hq : s.assignedQ (initial_cpu btcb s) with _ | ⟨rtcb, rest⟩ <;>
    simp only [smp_target, hq, List.head?_nil, List.head?_cons] at h
  · cases h
  · split at h
    · simp only [Option.some.injEq, Prod.mk.injEq] at h
      refine ⟨h.2.symm, rtcb, rest, ?_, by assumption⟩
      rw [h.2.symm]
      exact hq
    · split at h <;> simp at h

theorem smp_target_assigned_inv (btcb : TCB) (s : SmpState) (c : Nat)
    (h : smp_target btcb s = some (TState.Assigned, c)) :
    c = btcb.cpu ∧ btcb.cpuLocked = true ∧ initial_cpu btcb s = btcb.cpu ∧
    ∃ rtcb rest, s.assignedQ c = rtcb :: rest ∧
      ¬ rtcb.sched_priority < btcb.sched_priority := by
  rcases hq : s.assignedQ (initial_cpu btcb s) with _ | ⟨rtcb, rest⟩ <;>
    simp only [smp_target, hq, List.head?_nil, List.head?_cons] at h
  · cases h
  · split at h
    · simp at h
    · split at h
      · simp only [Option.some.injEq, Prod.mk.injEq] at h
        have hcl : btcb.cpuLocked = true := by assumption
        have hini : initial_cpu btcb s = btcb.cpu := by
          simp [initial_cpu, hcl]
        refine ⟨h.2.symm, hcl, hini, rtcb, rest, ?_, by assumption⟩
        rw [h.2.symm, ← hini]
        exact hq
      · simp at h

theorem addrtr_path_preempt (btcb : TCB) (me : Nat) (s : SmpState) (c : Nat)
    (rtcb : TCB) (rest : List TCB)
    (hq : s.assignedQ c = rtcb :: rest)
    (hlt : rtcb.sched_priority < btcb.sched_priority) {j : Bool} :
    addrtr_assigned_path btcb me s c j =
      some (decide (c = me),
        let b := { btcb with cpu := c, task_state := TState.Running }
        let s1 : SmpState := { s with
          g_cpu_lockset :=
            if btcb.lockcount > 0 then setBit s.g_cpu_lockset c
            else clrBit s.g_cpu_lockset c
          g_cpu_irqset :=
            if btcb.irqcount > 0 then setBit s.g_cpu_irqset c
            else clrBit s.g_cpu_irqset c }
        if rtcb.cpuLocked then
          s1.setAssigned c (b :: { rtcb with task_state := TState.Assigned } :: rest)
        else
          let s3 := s1.setAssigned c (b :: rest)
          if schedlock_islocked s1 then
            { s3 with g_pendingtasks :=
              (sched_addprioritized { rtcb with task_state := TState.Pending }
                s3.g_pendingtasks).2 }
          else
            { s3 with g_readytorun :=
              (sched_addprioritized { rtcb with task_state := TState.ReadyToRun }
                s3.g_readytorun).2 }) := by
  unfold addrtr_assigned_path
  rw [hq]
  simp [sched_addprioritized, hlt]

theorem addrtr_path_noswitch (btcb : TCB) (me : Nat) (s : SmpState) (c : Nat)
    (rtcb : TCB) (rest : List TCB)
    (hq : s.assignedQ c = rtcb :: rest)
    (hge : ¬ rtcb.sched_priority < btcb.sched_priority) {j : Bool} :
    addrtr_assigned_path btcb me s c j =
      some ((if c = me then j else false), s.setAssigned c
        (rtcb :: insertPrio { btcb with cpu := c, task_state := TState.Assigned } rest)) := by
  unfold addrtr_assigned_path
  rw [hq]
  simp [sched_addprioritized, hge]

theorem addprioritized_snd (t : TCB) (q : List TCB) :
    (sched_addprioritized t q).2 = insertPrio t q := by
  cases q with
  | nil => rfl
  | cons h rest =>
    simp only [sched_addprioritized, insertPrio]
    split <;> rfl

theorem mem_insertPrio_self (t : TCB) (q : List TCB) : t ∈ insertPrio t q := by
  induction q with
  | nil => simp [insertPrio]
  | cons h rest ih =>
    unfold insertPrio
    split <;> simp [ih]

theorem smp_target_cases (btcb : TCB) (s : SmpState) (tst : TState) (c : Nat)
    (h : smp_target btcb s = some (tst, c)) :
    tst = TState.Running ∨ tst = TState.Assigned ∨ tst = TState.ReadyToRun := by
  rcases hq : s.assignedQ (initial_cpu btcb s) with _ | ⟨rtcb, rest⟩ <;>
    simp only [smp_target, hq, List.head?_nil, List.head?_cons] at h
  · cases h
  · split at h
    · simp only [Option.some.injEq, Prod.mk.injEq] at h
      exact Or.inl h.1.symm
    · split at h <;> simp only [Option.some.injEq, Prod.mk.injEq] at h
      · exact Or.inr (Or.inl h.1.symm)
      · exact Or.inr (Or.inr h.1.symm)

/-! Claim theorems. -/

/-- Claim C6: on uniprocessor, when the running task (head of the
ready-to-run list) has `lockcount > 0` and strictly lower priority than the
new task, `sched_addreadytorun` adds the new task to `g_pendingtasks` in
state `TSTATE_TASK_PENDING`, returns `false`, and leaves the ready-to-run
list (hence the running task) unchanged. -/
theorem up_pending_when_preemption_blocked (btcb : TCB) (s : UpState)
    (rtcb : TCB) (rest : List TCB) (hq : s.g_readytorun = rtcb :: rest)
    (hlk : rtcb.lockcount > 0)
    (hpri : rtcb.sched_priority < btcb.sched_priority) :
    sched_addreadytorun_up btcb s =
      some (false, { s with g_pendingtasks :=
        (sched_addprioritized { btcb with task_state := TState.Pending }
          s.g_pendingtasks).2 }) ∧
    { btcb with task_state := TState.Pending } ∈
      (sched_addprioritized { btcb with task_state := TState.Pending }
        s.g_pendingtasks).2 := by
  constructor
  · unfold sched_addreadytorun_up
    rw [hq]
    simp [hlk, hpri]
  · rw [addprioritized_snd]
    exact mem_insertPrio_self _ _

/-- Claim C6 witness: running priority 50 with the scheduler lock held,
admitting priority 200 diverts to pending and returns `false`. -/
theorem up_pending_when_preemption_blocked_witness :
    sched_addreadytorun_up
        { pid := 2, sched_priority := 200, task_state := TState.Invalid, cpu := 0,
          cpuLocked := false, affinity := 1, lockcount := 0, irqcount := 0 }
        { g_readytorun :=
            [{ pid := 1, sched_priority := 50, task_state := TState.Running, cpu := 0,
               cpuLocked := false, affinity := 1, lockcount := 1, irqcount := 0 }],
          g_pendingtasks := [] } =
      some (false,
        { g_readytorun :=
            [{ pid := 1, sched_priority := 50, task_state := TState.Running, cpu := 0,
               cpuLocked := false, affinity := 1, lockcount := 1, irqcount := 0 }],
          g_pendingtasks :=
            [{ pid := 2, sched_priority := 200, task_state := TState.Pending, cpu := 0,
               cpuLocked := false, affinity := 1, lockcount := 0, irqcount := 0 }] }) ∧
    ({ pid := 2, sched_priority := 200, task_state := TState.Pending, cpu := 0,
       cpuLocked := false, affinity := 1, lockcount := 0, irqcount := 0 } : TCB) ∈
      [({ pid := 2, sched_priority := 200, task_state := TState.Pending, cpu := 0,
          cpuLocked := false, affinity := 1, lockcount := 0, irqcount := 0 } : TCB)] :=
  up_pending_when_preemption_blocked
    { pid := 2, sched_priority := 200, task_state := TState.Invalid, cpu := 0,
      cpuLocked := false, affinity := 1, lockcount := 0, irqcount := 0 }
    { g_readytorun :=
        [{ pid := 1, sched_priority := 50, task_state := TState.Running, cpu := 0,
           cpuLocked := false, affinity := 1, lockcount := 1, irqcount := 0 }],
      g_pendingtasks := [] }
    { pid := 1, sched_priority := 50, task_state := TState.Running, cpu := 0,
      cpuLocked := false, affinity := 1, lockcount := 1, irqcount := 0 }
    [] (by decide) (by decide) (by decide)

/-! Concrete fixtures used by the witness theorems (field order:
pid, sched_priority, task_state, cpu, cpuLocked, affinity, lockcount,
irqcount). -/

def upRun100 : TCB := ⟨1, 100, TState.Running, 0, false, 1, 0, 0⟩

def upRun50 : TCB := ⟨1, 50, TState.Running, 0, false, 1, 0, 0⟩

def upTaskHi : TCB := ⟨2, 200, TState.Invalid, 0, false, 1, 0, 0⟩

def upTaskLo : TCB := ⟨3, 80, TState.Invalid, 0, false, 1, 0, 0⟩

def upSt100 : UpState := ⟨[upRun100], []⟩

def upSt50 : UpState := ⟨[upRun50], []⟩

/-- Claim C7: on uniprocessor, in every case not diverted to pending, the new
task is inserted into the ready-to-run list by priority; the call returns
`true` exactly when it became the head, in which case it is `Running` and the
previous head becomes `ReadyToRun`; otherwise it is `ReadyToRun` and the call
returns `false`. -/
theorem up_insert_readytorun_characterization (btcb : TCB) (s : UpState)
    (rtcb : TCB) (rest : List TCB) (hq : s.g_readytorun = rtcb :: rest)
    (hnb : ¬ (rtcb.lockcount > 0 ∧ rtcb.sched_priority < btcb.sched_priority)) :
    (rtcb.sched_priority < btcb.sched_priority →
      sched_addreadytorun_up btcb s =
        some (true, { s with g_readytorun :=
          ({ btcb with task_state := TState.Running } ::
            { rtcb with task_state := TState.ReadyToRun } :: rest) })) ∧
    (¬ rtcb.sched_priority < btcb.sched_priority →
      sched_addreadytorun_up btcb s =
        some (false, { s with g_readytorun :=
          (rtcb :: insertPrio { btcb with task_state := TState.ReadyToRun } rest) })) ∧
    (∀ r s2, sched_addreadytorun_up btcb s = some (r, s2) →
      r = (sched_addprioritized btcb s.g_readytorun).1) := by
  refine ⟨?_, ?_, ?_⟩
  · intro hlt
    simp only [sched_addreadytorun_up, hq]
    rw [if_neg hnb]
    simp [sched_addprioritized, hlt]
  · intro hge
    simp only [sched_addreadytorun_up, hq]
    rw [if_neg hnb]
    simp [sched_addprioritized, hge]
  · intro r s2 h
    rw [hq]
    simp only [sched_addreadytorun_up, hq] at h
    rw [if_neg hnb] at h
    by_cases hlt : rtcb.sched_priority < btcb.sched_priority <;>
      simp [sched_addprioritized, hlt] at h ⊢ <;> exact h.1

/-- Claim C7 witness: admitting priority 80 under running priority 100 keeps
the head and returns `false`. -/
theorem up_insert_readytorun_characterization_witness :
    sched_addreadytorun_up upTaskLo upSt100 =
      some (false, { upSt100 with g_readytorun :=
        (upRun100 :: insertPrio { upTaskLo with task_state := TState.ReadyToRun } []) }) :=
  (up_insert_readytorun_characterization upTaskLo upSt100 upRun100 []
    (by decide) (by decide)).2.1 (by decide)

/-- Claim C9: on uniprocessor, whenever `sched_addreadytorun` returns `true`,
the previously running task (head of the ready-to-run list on entry) had
`lockcount = 0`, so the `DEBUGASSERT(rtcb->lockcount == 0 && ...)` on that
branch is valid. -/
theorem up_switch_implies_zero_lockcount (btcb : TCB) (s : UpState)
    (s2 : UpState) (rtcb : TCB) (rest : List TCB)
    (hq : s.g_readytorun = rtcb :: rest)
    (h : sched_addreadytorun_up btcb s = some (true, s2)) :
    rtcb.lockcount = 0 := by
  simp only [sched_addreadytorun_up, hq] at h
  split at h
  · simp at h
  · rename_i hcond
    split at h
    · rename_i hsw
      simp only [sched_addprioritized] at hsw
      split at hsw
      · rename_i hlt
        omega
      · simp at hsw
    · simp at h

/-- Claim C9 witness: admitting priority 200 over running priority 50 with
`lockcount = 0` returns `true`, and the theorem recovers that lock count. -/
theorem up_switch_implies_zero_lockcount_witness : upRun50.lockcount = 0 :=
  up_switch_implies_zero_lockcount upTaskHi upSt50
    ⟨[{ upTaskHi with task_state := TState.Running },
      { upRun50 with task_state := TState.ReadyToRun }], []⟩
    upRun50 [] (by decide) (by decide)

/-- Claim C8: `sched_cpulocked` returns `false` before the OS has completed
early initialization; afterwards it returns `true` exactly when
`g_cpu_irqset` is nonzero and does not contain the calling CPU's bit; in
particular it returns `false` whenever the calling CPU holds the IRQ lock. -/
theorem sched_cpulocked_characterization (s : SmpState) (me : Nat) :
    (s.g_os_initstate < OSINIT_OSREADY → sched_cpulocked s me = false) ∧
    (OSINIT_OSREADY ≤ s.g_os_initstate →
      (sched_cpulocked s me = true ↔
        s.g_cpu_irqset ≠ 0 ∧ s.g_cpu_irqset.testBit me = false)) ∧
    (s.g_cpu_irqset.testBit me = true → sched_cpulocked s me = false) := by
  refine ⟨?_, ?_, ?_⟩
  · intro h
    simp [sched_cpulocked, h]
  · intro h
    rw [sched_cpulocked, if_neg (by omega)]
    by_cases hz : s.g_cpu_irqset = 0
    · simp [hz]
    · simp [hz, and_bit_eq_zero_iff]
  · intro hb
    rw [sched_cpulocked]
    split
    · rfl
    · split
      · simp [and_bit_eq_zero_iff, hb]
      · rfl

/-- Claim C8 witness: with `g_cpu_irqset = 1`, CPU 0 (the lock holder) is not
blocked by the IRQ lock. -/
theorem sched_cpulocked_characterization_witness :
    sched_cpulocked ⟨2, [[upRun100], [upRun50]], [], [], 0, 1, 6⟩ 0 = false :=
  (sched_cpulocked_characterization ⟨2, [[upRun100], [upRun50]], [], [], 0, 1, 6⟩ 0).2.2
    (by decide)

/-! SMP fixtures: two CPUs, priority 90 running on CPU 0, priority 40 on
CPU 1, both queues otherwise empty, no locks held, OS ready. -/

def smpRun90 : TCB := ⟨1, 90, TState.Running, 0, false, 3, 0, 0⟩

def smpRun40 : TCB := ⟨2, 40, TState.Running, 1, false, 3, 0, 0⟩

def smpTaskHi : TCB := ⟨3, 150, TState.Invalid, 0, false, 3, 0, 0⟩

def smpSt : SmpState := ⟨2, [[smpRun90], [smpRun40]], [], [], 0, 0, 6⟩

/-- Claim C3: on SMP, whenever the target state computed against
`head g_assignedtasks[c]` is `Running`, the prioritized insertion into
`g_assignedtasks[c]` makes the new task the head (so the
`DEBUGASSERT(task_state == TSTATE_TASK_RUNNING)` cannot fire); conversely on
the assigned-list arm, if the insertion does not become the head the target
state was `Assigned`. -/
theorem smp_running_target_switches (btcb : TCB) (s : SmpState) (tst : TState)
    (c : Nat) (hsel : smp_target btcb s = some (tst, c)) :
    (tst = TState.Running → (sched_addprioritized btcb (s.assignedQ c)).1 = true) ∧
    ((tst = TState.Running ∨ tst = TState.Assigned) →
      (sched_addprioritized btcb (s.assignedQ c)).1 = false →
      tst = TState.Assigned) := by
  constructor
  · intro hR
    subst hR
    obtain ⟨-, rtcb, rest, hq, hlt⟩ := smp_target_running_inv btcb s c hsel
    rw [hq]
    simp [sched_addprioritized, hlt]
  · intro hRA hsw
    rcases hRA with hR | hA
    · exfalso
      subst hR
      obtain ⟨-, rtcb, rest, hq, hlt⟩ := smp_target_running_inv btcb s c hsel
      rw [hq] at hsw
      simp [sched_addprioritized, hlt] at hsw
    · exact hA

/-- Claim C3 witness: admitting priority 150 selects CPU 1 (running priority
40), the target is `Running`, and the insertion lands at the head. -/
theorem smp_running_target_switches_witness :
    (sched_addprioritized smpTaskHi (smpSt.assignedQ 1)).1 = true :=
  (smp_running_target_switches smpTaskHi smpSt TState.Running 1 (by decide)).1 rfl

/-- Claim C2: on SMP, when the scheduler lock is held or the IRQ lock is held
by another CPU, and the computed target state is not `Assigned`, the task is
added to `g_pendingtasks` in state `Pending` and the call returns `false`;
calls whose target state is `Assigned` bypass the diversion and leave
`g_pendingtasks` untouched. -/
theorem smp_divert_pending_when_locked (btcb : TCB) (me : Nat) (s : SmpState)
    (tst : TState) (c : Nat) (j : Bool)
    (hsel : smp_target btcb s = some (tst, c)) :
    ((schedlock_islocked s || sched_cpulocked s me) = true →
      tst ≠ TState.Assigned →
      sched_addreadytorun_smp btcb me s j =
        some (false, { s with g_pendingtasks :=
          (sched_addprioritized { btcb with task_state := TState.Pending }
            s.g_pendingtasks).2 }) ∧
      { btcb with task_state := TState.Pending } ∈
        (sched_addprioritized { btcb with task_state := TState.Pending }
          s.g_pendingtasks).2) ∧
    (tst = TState.Assigned → ∀ r s2,
      sched_addreadytorun_smp btcb me s j = some (r, s2) →
      s2.g_pendingtasks = s.g_pendingtasks) := by
  rw [smp_eq_rest btcb me s tst c hsel]
  constructor
  · intro hlk hne
    constructor
    · unfold addrtr_rest
      simp [hlk, hne]
    · rw [addprioritized_snd]
      exact mem_insertPrio_self _ _
  · intro hA r s2 h
    subst hA
    obtain ⟨hc, hcl, hini, rtcb, rest, hq, hge⟩ :=
      smp_target_assigned_inv btcb s c hsel
    unfold addrtr_rest at h
    rw [if_neg (by simp)] at h
    rw [if_neg (by simp)] at h
    rw [addrtr_path_noswitch btcb me s c rtcb rest hq hge] at h
    simp only [Option.some.injEq, Prod.mk.injEq] at h
    rw [← h.2]
    rfl

/-- Claim C2 witness: with the IRQ lock held by CPU 0 and the caller on CPU 1,
admitting priority 150 (target `Running`) diverts to pending and returns
`false`. -/
theorem smp_divert_pending_when_locked_witness :
    sched_addreadytorun_smp smpTaskHi 1 ⟨2, [[smpRun90], [smpRun40]], [], [], 0, 1, 6⟩ true =
      some (false, { (⟨2, [[smpRun90], [smpRun40]], [], [], 0, 1, 6⟩ : SmpState) with
        g_pendingtasks :=
          (sched_addprioritized { smpTaskHi with task_state := TState.Pending } []).2 }) ∧
    { smpTaskHi with task_state := TState.Pending } ∈
      (sched_addprioritized { smpTaskHi with task_state := TState.Pending } []).2 :=
  (smp_divert_pending_when_locked smpTaskHi 1
    ⟨2, [[smpRun90], [smpRun40]], [], [], 0, 1, 6⟩ TState.Running 1 true (by decide)).1
    (by decide) (by decide)

theorem preempt_head (btcb : TCB) (me : Nat) (s : SmpState) (c : Nat)
    (rtcb : TCB) (rest : List TCB) (ret : Bool) (s2 : SmpState)
    (hq : s.assignedQ c = rtcb :: rest)
    (hlt : rtcb.sched_priority < btcb.sched_priority)
    {j : Bool} (h : addrtr_assigned_path btcb me s c j = some (ret, s2)) :
    (s2.assignedQ c).head? =
      some { btcb with cpu := c, task_state := TState.Running } := by
  have hlen : c < s.g_assignedtasks.length :=
    assignedQ_lt_of_ne_nil s c (by rw [hq]; simp)
  rw [addrtr_path_preempt btcb me s c rtcb rest hq hlt] at h
  simp only [Option.some.injEq, Prod.mk.injEq] at h
  obtain ⟨-, hs2⟩ := h
  subst hs2
  cases hcl : rtcb.cpuLocked <;>
    simp only [hcl, Bool.false_eq_true, ite_false, ite_true] <;>
    repeat' split
  all_goals
    simp only [SmpState.assignedQ, SmpState.setAssigned]
    rw [getD_set_self _ _ _ _ hlen]
    rfl

theorem preempt_other (btcb : TCB) (me : Nat) (s : SmpState) (c : Nat)
    (rtcb : TCB) (rest : List TCB) (ret : Bool) (s2 : SmpState)
    (hq : s.assignedQ c = rtcb :: rest)
    (hlt : rtcb.sched_priority < btcb.sched_priority)
    {j : Bool} (h : addrtr_assigned_path btcb me s c j = some (ret, s2)) :
    ∀ c2, c ≠ c2 → s2.assignedQ c2 = s.assignedQ c2 := by
  rw [addrtr_path_preempt btcb me s c rtcb rest hq hlt] at h
  simp only [Option.some.injEq, Prod.mk.injEq] at h
  obtain ⟨-, hs2⟩ := h
  subst hs2
  intro c2 hne
  cases hcl : rtcb.cpuLocked <;>
    simp only [hcl, Bool.false_eq_true, ite_false, ite_true] <;>
    repeat' split
  all_goals
    simp only [SmpState.assignedQ, SmpState.setAssigned]
    rw [getD_set_ne _ _ _ _ _ hne]

theorem preempt_masks (btcb : TCB) (me : Nat) (s : SmpState) (c : Nat)
    (rtcb : TCB) (rest : List TCB) (ret : Bool) (s2 : SmpState)
    (hq : s.assignedQ c = rtcb :: rest)
    (hlt : rtcb.sched_priority < btcb.sched_priority)
    {j : Bool} (h : addrtr_assigned_path btcb me s c j = some (ret, s2)) :
    s2.g_cpu_lockset =
      (if btcb.lockcount > 0 then setBit s.g_cpu_lockset c
       else clrBit s.g_cpu_lockset c) ∧
    s2.g_cpu_irqset =
      (if btcb.irqcount > 0 then setBit s.g_cpu_irqset c
       else clrBit s.g_cpu_irqset c) := by
  rw [addrtr_path_preempt btcb me s c rtcb rest hq hlt] at h
  simp only [Option.some.injEq, Prod.mk.injEq] at h
  obtain ⟨-, hs2⟩ := h
  subst hs2
  cases hcl : rtcb.cpuLocked <;>
    simp only [hcl, Bool.false_eq_true, ite_false, ite_true] <;>
    repeat' split
  all_goals exact ⟨rfl, rfl⟩

theorem preempt_ret (btcb : TCB) (me : Nat) (s : SmpState) (c : Nat)
    (rtcb : TCB) (rest : List TCB) (ret : Bool) (s2 : SmpState)
    (hq : s.assignedQ c = rtcb :: rest)
    (hlt : rtcb.sched_priority < btcb.sched_priority)
    {j : Bool} (h : addrtr_assigned_path btcb me s c j = some (ret, s2)) :
    ret = decide (c = me) := by
  rw [addrtr_path_preempt btcb me s c rtcb rest hq hlt] at h
  simp only [Option.some.injEq, Prod.mk.injEq] at h
  exact h.1.symm

theorem preempt_rehome_locked (btcb : TCB) (me : Nat) (s : SmpState) (c : Nat)
    (rtcb : TCB) (rest : List TCB) (ret : Bool) (s2 : SmpState)
    (hq : s.assignedQ c = rtcb :: rest)
    (hlt : rtcb.sched_priority < btcb.sched_priority)
    {j : Bool} (h : addrtr_assigned_path btcb me s c j = some (ret, s2))
    (hcl : rtcb.cpuLocked = true) :
    s2.assignedQ c =
      ({ btcb with cpu := c, task_state := TState.Running } ::
        { rtcb with task_state := TState.Assigned } :: rest) ∧
    s2.g_pendingtasks = s.g_pendingtasks ∧
    s2.g_readytorun = s.g_readytorun := by
  have hlen : c < s.g_assignedtasks.length :=
    assignedQ_lt_of_ne_nil s c (by rw [hq]; simp)
  rw [addrtr_path_preempt btcb me s c rtcb rest hq hlt] at h
  simp only [Option.some.injEq, Prod.mk.injEq] at h
  obtain ⟨-, hs2⟩ := h
  subst hs2
  simp only [hcl, ite_true]
  refine ⟨?_, rfl, rfl⟩
  simp only [SmpState.assignedQ, SmpState.setAssigned]
  rw [getD_set_self _ _ _ _ hlen]

theorem preempt_rehome_unlocked (btcb : TCB) (me : Nat) (s : SmpState) (c : Nat)
    (rtcb : TCB) (rest : List TCB) (ret : Bool) (s2 : SmpState)
    (hq : s.assignedQ c = rtcb :: rest)
    (hlt : rtcb.sched_priority < btcb.sched_priority)
    {j : Bool} (h : addrtr_assigned_path btcb me s c j = some (ret, s2))
    (hcl : rtcb.cpuLocked = false) :
    s2.assignedQ c = ({ btcb with cpu := c, task_state := TState.Running } :: rest) ∧
    (s2.g_cpu_lockset ≠ 0 →
      s2.g_pendingtasks =
        (sched_addprioritized { rtcb with task_state := TState.Pending }
          s.g_pendingtasks).2 ∧
      s2.g_readytorun = s.g_readytorun) ∧
    (s2.g_cpu_lockset = 0 →
      s2.g_readytorun =
        (sched_addprioritized { rtcb with task_state := TState.ReadyToRun }
          s.g_readytorun).2 ∧
      s2.g_pendingtasks = s.g_pendingtasks) := by
  have hlen : c < s.g_assignedtasks.length :=
    assignedQ_lt_of_ne_nil s c (by rw [hq]; simp)
  rw [addrtr_path_preempt btcb me s c rtcb rest hq hlt] at h
  simp only [Option.some.injEq, Prod.mk.injEq] at h
  obtain ⟨-, hs2⟩ := h
  subst hs2
  simp only [hcl, Bool.false_eq_true, ite_false]
  generalize (if btcb.lockcount > 0 then setBit s.g_cpu_lockset c
    else clrBit s.g_cpu_lockset c) = L
  generalize (if btcb.irqcount > 0 then setBit s.g_cpu_irqset c
    else clrBit s.g_cpu_irqset c) = I
  split
  · rename_i hsl
    simp only [schedlock_islocked, ne_eq, decide_eq_true_eq] at hsl
    refine ⟨?_, fun _ => ⟨rfl, rfl⟩, fun h0 => absurd h0 hsl⟩
    simp only [SmpState.assignedQ, SmpState.setAssigned]
    rw [getD_set_self _ _ _ _ hlen]
  · rename_i hsl
    simp only [schedlock_islocked, ne_eq, decide_eq_true_eq] at hsl
    push_neg at hsl
    refine ⟨?_, fun h0 => absurd hsl h0, fun _ => ⟨rfl, rfl⟩⟩
    simp only [SmpState.assignedQ, SmpState.setAssigned]
    rw [getD_set_self _ _ _ _ hlen]

/-- The state produced from `smpSt` by admitting `smpTaskHi` on CPU 0:
priority 150 preempts CPU 1 and the displaced priority-40 task moves to the
ready-to-run list. -/
def smpStAfter : SmpState :=
  ⟨2, [[smpRun90], [⟨3, 150, TState.Running, 1, false, 3, 0, 0⟩]],
   [⟨2, 40, TState.ReadyToRun, 1, false, 3, 0, 0⟩], [], 0, 0, 6⟩

/-- Claim C4: on SMP, after the preemptive path installs the new task as the
head of `g_assignedtasks[c]`, bit `c` of `g_cpu_lockset` is set iff its
`lockcount > 0` and bit `c` of `g_cpu_irqset` is set iff its `irqcount > 0`
(invariants P4 and P5 for the CPU whose head changed). -/
theorem smp_preempt_sets_lock_masks (btcb : TCB) (me : Nat) (s : SmpState)
    (c : Nat) (ret : Bool) (s2 : SmpState) (j : Bool)
    (hsel : smp_target btcb s = some (TState.Running, c))
    (hnd : (schedlock_islocked s || sched_cpulocked s me) = false)
    (h : sched_addreadytorun_smp btcb me s j = some (ret, s2)) :
    (s2.assignedQ c).head? =
      some { btcb with cpu := c, task_state := TState.Running } ∧
    s2.g_cpu_lockset.testBit c = decide (btcb.lockcount > 0) ∧
    s2.g_cpu_irqset.testBit c = decide (btcb.irqcount > 0) := by
  obtain ⟨-, rtcb, rest, hq, hlt⟩ := smp_target_running_inv btcb s c hsel
  rw [smp_eq_rest btcb me s _ _ hsel] at h
  unfold addrtr_rest at h
  rw [if_neg (by simp [hnd])] at h
  rw [if_neg (by simp)] at h
  obtain ⟨hLK, hIQ⟩ := preempt_masks btcb me s c rtcb rest ret s2 hq hlt h
  refine ⟨preempt_head btcb me s c rtcb rest ret s2 hq hlt h, ?_, ?_⟩
  · rw [hLK]
    by_cases h0 : btcb.lockcount > 0 <;>
      simp [h0, testBit_setBit_self, testBit_clrBit_self]
  · rw [hIQ]
    by_cases h0 : btcb.irqcount > 0 <;>
      simp [h0, testBit_setBit_self, testBit_clrBit_self]

/-- Claim C4 witness: after admitting priority 150 onto CPU 1 (lock and IRQ
counts zero), it heads `g_assignedtasks[1]` and both mask bits for CPU 1 are
clear. -/
theorem smp_preempt_sets_lock_masks_witness :
    (smpStAfter.assignedQ 1).head? =
      some { smpTaskHi with cpu := 1, task_state := TState.Running } ∧
    smpStAfter.g_cpu_lockset.testBit 1 = decide (smpTaskHi.lockcount > 0) ∧
    smpStAfter.g_cpu_irqset.testBit 1 = decide (smpTaskHi.irqcount > 0) :=
  smp_preempt_sets_lock_masks smpTaskHi 0 smpSt 1 false smpStAfter true
    (by decide) (by decide) (by decide)

/-- Claim C5: on SMP, in the preemptive path the displaced former head is
re-homed: if it is CPU-locked it stays second in `g_assignedtasks[c]` in
state `Assigned`; otherwise it leaves `g_assignedtasks[c]` and — re-reading
the scheduler lock after the mask update, i.e. against the final
`g_cpu_lockset` — joins `g_pendingtasks` in state `Pending` when the lock is
held, else `g_readytorun` in state `ReadyToRun`. -/
theorem smp_preempt_rehomes_displaced_head (btcb : TCB) (me : Nat)
    (s : SmpState) (c : Nat) (rtcb : TCB) (rest : List TCB) (ret : Bool)
    (s2 : SmpState) (j : Bool)
    (hsel : smp_target btcb s = some (TState.Running, c))
    (hq : s.assignedQ c = rtcb :: rest)
    (hnd : (schedlock_islocked s || sched_cpulocked s me) = false)
    (h : sched_addreadytorun_smp btcb me s j = some (ret, s2)) :
    (rtcb.cpuLocked = true →
      s2.assignedQ c =
        ({ btcb with cpu := c, task_state := TState.Running } ::
          { rtcb with task_state := TState.Assigned } :: rest) ∧
      s2.g_pendingtasks = s.g_pendingtasks ∧
      s2.g_readytorun = s.g_readytorun) ∧
    (rtcb.cpuLocked = false →
      s2.assignedQ c =
        ({ btcb with cpu := c, task_state := TState.Running } :: rest) ∧
      (s2.g_cpu_lockset ≠ 0 →
        s2.g_pendingtasks =
          (sched_addprioritized { rtcb with task_state := TState.Pending }
            s.g_pendingtasks).2 ∧
        s2.g_readytorun = s.g_readytorun) ∧
      (s2.g_cpu_lockset = 0 →
        s2.g_readytorun =
          (sched_addprioritized { rtcb with task_state := TState.ReadyToRun }
            s.g_readytorun).2 ∧
        s2.g_pendingtasks = s.g_pendingtasks)) := by
  obtain ⟨-, rtcb2, rest2, hq2, hlt2⟩ := smp_target_running_inv btcb s c hsel
  rw [hq] at hq2
  obtain ⟨he, ht⟩ := List.cons.inj hq2
  subst he
  have hlt : rtcb.sched_priority < btcb.sched_priority := hlt2
  rw [smp_eq_rest btcb me s _ _ hsel] at h
  unfold addrtr_rest at h
  rw [if_neg (by simp [hnd])] at h
  rw [if_neg (by simp)] at h
  exact ⟨preempt_rehome_locked btcb me s c rtcb rest ret s2 hq hlt h,
    preempt_rehome_unlocked btcb me s c rtcb rest ret s2 hq hlt h⟩

/-- Claim C5 witness: the displaced priority-40 head of CPU 1 is not
CPU-locked; with the final `g_cpu_lockset = 0` it moved to `g_readytorun` in
state `ReadyToRun` and the pending list stayed empty. -/
theorem smp_preempt_rehomes_displaced_head_witness :
    smpStAfter.assignedQ 1 =
      ({ smpTaskHi with cpu := 1, task_state := TState.Running } :: []) ∧
    (smpStAfter.g_cpu_lockset ≠ 0 →
      smpStAfter.g_pendingtasks =
        (sched_addprioritized { smpRun40 with task_state := TState.Pending }
          smpSt.g_pendingtasks).2 ∧
      smpStAfter.g_readytorun = smpSt.g_readytorun) ∧
    (smpStAfter.g_cpu_lockset = 0 →
      smpStAfter.g_readytorun =
        (sched_addprioritized { smpRun40 with task_state := TState.ReadyToRun }
          smpSt.g_readytorun).2 ∧
      smpStAfter.g_pendingtasks = smpSt.g_pendingtasks) :=
  (smp_preempt_rehomes_displaced_head smpTaskHi 0 smpSt 1 smpRun40 [] false
    smpStAfter true (by decide) (by decide) (by decide) (by decide)).2 (by decide)

/-- Claim C10: on SMP, when the call ends with the new task placed in
`g_pendingtasks` (divert path) or in `g_readytorun` (ReadyToRun target), the
lock masks, the assigned lists and the task's `cpu` field are all left
unchanged. -/
theorem smp_nonpreempt_frame (btcb : TCB) (me : Nat) (s : SmpState)
    (tst : TState) (c : Nat) (r : Bool) (s2 : SmpState) (j : Bool)
    (hsel : smp_target btcb s = some (tst, c))
    (h : sched_addreadytorun_smp btcb me s j = some (r, s2)) :
    (((schedlock_islocked s || sched_cpulocked s me) = true ∧
        tst ≠ TState.Assigned) →
      r = false ∧
      s2.g_cpu_lockset = s.g_cpu_lockset ∧
      s2.g_cpu_irqset = s.g_cpu_irqset ∧
      s2.g_assignedtasks = s.g_assignedtasks ∧
      s2.g_pendingtasks =
        (sched_addprioritized { btcb with task_state := TState.Pending }
          s.g_pendingtasks).2 ∧
      TCB.cpu { btcb with task_state := TState.Pending } = btcb.cpu) ∧
    (((schedlock_islocked s || sched_cpulocked s me) = false ∧
        tst = TState.ReadyToRun) →
      r = false ∧
      s2.g_cpu_lockset = s.g_cpu_lockset ∧
      s2.g_cpu_irqset = s.g_cpu_irqset ∧
      s2.g_assignedtasks = s.g_assignedtasks ∧
      s2.g_readytorun =
        (sched_addprioritized { btcb with task_state := TState.ReadyToRun }
          s.g_readytorun).2 ∧
      TCB.cpu { btcb with task_state := TState.ReadyToRun } = btcb.cpu) := by
  rw [smp_eq_rest btcb me s tst c hsel] at h
  unfold addrtr_rest at h
  constructor
  · rintro ⟨hlk, hne⟩
    rw [if_pos (by simp [hlk, hne])] at h
    simp only [Option.some.injEq, Prod.mk.injEq] at h
    obtain ⟨hr, hs2⟩ := h
    subst hs2
    exact ⟨hr.symm, rfl, rfl, rfl, rfl, rfl⟩
  · rintro ⟨hnl, hrtr⟩
    subst hrtr
    rw [if_neg (by simp [hnl])] at h
    rw [if_pos rfl] at h
    simp only [Option.some.injEq, Prod.mk.injEq] at h
    obtain ⟨hr, hs2⟩ := h
    subst hs2
    exact ⟨hr.symm, rfl, rfl, rfl, rfl, rfl⟩

/-- Claim C10 witness: with the IRQ lock held by CPU 0 and the caller on
CPU 1, admitting priority 150 lands in pending while both masks, the
assigned lists and the task's `cpu` field are untouched. -/
theorem smp_nonpreempt_frame_witness :
    (((schedlock_islocked ⟨2, [[smpRun90], [smpRun40]], [], [], 0, 1, 6⟩ ||
        sched_cpulocked ⟨2, [[smpRun90], [smpRun40]], [], [], 0, 1, 6⟩ 1) = true ∧
        TState.Running ≠ TState.Assigned) →
      false = false ∧
      (0 : Nat) = 0 ∧
      (1 : Nat) = 1 ∧
      [[smpRun90], [smpRun40]] = [[smpRun90], [smpRun40]] ∧
      [{ smpTaskHi with task_state := TState.Pending }] =
        (sched_addprioritized { smpTaskHi with task_state := TState.Pending }
          []).2 ∧
      TCB.cpu { smpTaskHi with task_state := TState.Pending } = smpTaskHi.cpu) ∧
    (((schedlock_islocked ⟨2, [[smpRun90], [smpRun40]], [], [], 0, 1, 6⟩ ||
        sched_cpulocked ⟨2, [[smpRun90], [smpRun40]], [], [], 0, 1, 6⟩ 1) = false ∧
        TState.Running = TState.ReadyToRun) →
      false = false ∧
      (0 : Nat) = 0 ∧
      (1 : Nat) = 1 ∧
      [[smpRun90], [smpRun40]] = [[smpRun90], [smpRun40]] ∧
      [] =
        (sched_addprioritized { smpTaskHi with task_state := TState.ReadyToRun }
          []).2 ∧
      TCB.cpu { smpTaskHi with task_state := TState.ReadyToRun } = smpTaskHi.cpu) :=
  smp_nonpreempt_frame smpTaskHi 1 ⟨2, [[smpRun90], [smpRun40]], [], [], 0, 1, 6⟩
    TState.Running 1 false
    ⟨2, [[smpRun90], [smpRun40]], [],
      [{ smpTaskHi with task_state := TState.Pending }], 0, 1, 6⟩
    true (by decide) (by decide)

/-- Fixture reaching the uninitialized-return path: priority 200 runs on
CPU 0 and a priority-100 task pinned to CPU 0 (`TCB_FLAG_CPU_LOCKED`,
`cpu = 0`) is admitted from CPU 0, so the target state is `Assigned`, the
insertion lands behind the head, and no pause/resume occurs. -/
def bugRun200 : TCB := ⟨1, 200, TState.Running, 0, false, 3, 0, 0⟩

def bugB : TCB := ⟨4, 100, TState.Invalid, 0, true, 1, 0, 0⟩

def bugSt : SmpState := ⟨2, [[bugRun200], [smpRun40]], [], [], 0, 0, 6⟩

def bugStAfter : SmpState :=
  ⟨2, [[bugRun200, ⟨4, 100, TState.Assigned, 0, true, 1, 0, 0⟩], [smpRun40]],
   [], [], 0, 0, 6⟩

/-- Claim C1 (code bug): on the non-switched assigned arm with `cpu = me`
(a task pinned to the calling CPU whose priority does not preempt), the C
function returns the local `doswitch` that was declared at line 261 and never
written on the path through lines 466-481, an uninitialized read.  Both
resolutions of the indeterminate value are reachable on the same input: with
the junk value `true` the call returns `true` although the head of the
calling CPU's assigned list is unchanged, contradicting the claimed
return-value contract (and the function's own documentation, lines 240-242);
with the junk value `false` it returns `false`.  The final state does not
depend on the junk value. -/
theorem smp_assigned_uninit_doswitch :
    sched_addreadytorun_smp bugB 0 bugSt true = some (true, bugStAfter) ∧
    sched_addreadytorun_smp bugB 0 bugSt false = some (false, bugStAfter) ∧
    (bugStAfter.assignedQ 0).head? = (bugSt.assignedQ 0).head? := by
  decide

end NuttxSched
